import Mathlib

/-!
# Verification of the ChutesProvider bounded instance cache

Shallow embedding of `src/app/lib/modules/llm/providers/chutes.ts`
(class `ChutesProvider`, provider name "OpenWebdev").

The provider keeps three pieces of mutable state:
  * `_modelInstanceCache : Map<string, LanguageModelV1>` — a JS `Map`,
    i.e. an insertion-ordered association of unique string keys to values;
  * `_performanceMetrics : Map<string, { requests, avgResponseTime }>`;
  * `_lastCacheCleanup : number` — a wall-clock timestamp.

JS `Map`s are modelled as insertion-ordered association lists with unique
keys (`NodupKeys` states the uniqueness that `Map` guarantees).  Model
instances (`LanguageModelV1`) are opaque values of a type parameter `V`.
Wall-clock time (`Date.now()`) is modelled as a `Nat` passed in explicitly.
`getProviderBaseUrlAndKey` lives in `base-provider.ts` (outside the cache
logic); its resolved result — the `baseUrl` and `apiKey` strings — is taken
as an input of `getModelInstance`, and the provider's own falsy check
`if (!baseUrl || !apiKey)` is modelled as emptiness of either string.
Exceptions are modelled with `Except String V`; the extra `Bool` in the
result records whether `_createOptimizedModel` (the model constructor,
whose body only performs SDK calls and never touches the cache) was
invoked during the call.
-/

deriving instance DecidableEq for Except

namespace OpenWebdev

/-- Entry shape `{ requests: number; avgResponseTime: number }` of `_performanceMetrics`. -/
structure PerformanceMetric where
  requests : Nat
  avgResponseTime : Nat
deriving DecidableEq, Repr

/-- The mutable fields of `ChutesProvider` that the cache logic touches. -/
structure ProviderState (V : Type) where
  modelInstanceCache : List (String × V)
  performanceMetrics : List (String × PerformanceMetric)
  lastCacheCleanup : Nat
deriving DecidableEq, Repr

/-- Field `name = 'OpenWebdev'`. -/
def providerName : String := "OpenWebdev"

/-- Field `_cacheCleanupInterval = 5 * 60 * 1000`. -/
def cacheCleanupInterval : Nat := 5 * 60 * 1000

/-- Field `_maxCacheSize = 100`. -/
def maxCacheSize : Nat := 100

/-- Count `Math.floor(this._maxCacheSize * 0.2)` of line 148: in IEEE double arithmetic
`100 * 0.2` evaluates to exactly `20`, so the floor is `20`. -/
def entriesToRemove : Nat := 20

/-- Threshold `this._maxCacheSize * 0.8` of line 137: in IEEE double arithmetic `100 * 0.8`
evaluates to exactly `80`; the periodic sweep evicts when `size > 80`. -/
def cacheSizeThreshold : Nat := 80

/-- Lookup `Map.get` (also covering `Map.has`: the key is present iff this is
`some`). -/
def mapGet? {V : Type} : List (String × V) → String → Option V
  | [], _ => none
  | q :: rest, k => if q.1 = k then some q.2 else mapGet? rest k

/-- Insertion `Map.set`: overwrite in place when the key is present, else append
(JS `Map` preserves the original insertion position on overwrite). -/
def mapSet {V : Type} (c : List (String × V)) (k : String) (v : V) :
    List (String × V) :=
  match mapGet? c k with
  | some _ => c.map (fun q => if q.1 = k then (k, v) else q)
  | none => c ++ [(k, v)]

/-- Removal `Map.delete`: removes the entry with key `k` (keys are unique in a JS
`Map`, so filtering out every pair with that key is the same removal). -/
def mapDelete {V : Type} (c : List (String × V)) (k : String) :
    List (String × V) :=
  c.filter (fun q => decide (q.1 ≠ k))

/-- The JS `Map` key-uniqueness invariant. -/
def NodupKeys {V : Type} (c : List (String × V)) : Prop :=
  (c.map Prod.fst).Nodup

instance {V : Type} (c : List (String × V)) : Decidable (NodupKeys c) :=
  inferInstanceAs (Decidable ((c.map Prod.fst).Nodup))

/-- The cache key of line 87: the template literal joining `model`, the
provider name, and the serialized provider settings with underscores;
`settings` stands for `JSON.stringify(providerSettings?.[this.name] || ...)`. -/
def cacheKeyOf (model settings : String) : String :=
  model ++ "_" ++ providerName ++ "_" ++ settings

/-- Method `_updatePerformanceMetrics` (lines 125–129): fetch the model's record
or a fresh `{ requests: 0, avgResponseTime: 0 }`, bump `requests`, store it
back.  The `_event` argument is unused by the source, so it is omitted. -/
def updatePerformanceMetrics (metrics : List (String × PerformanceMetric))
    (model : String) : List (String × PerformanceMetric) :=
  let current := (mapGet? metrics model).getD ⟨0, 0⟩
  mapSet metrics model ⟨current.requests + 1, current.avgResponseTime⟩

/-- Method `_performIntelligentCacheEviction` (lines 146–158): snapshot the key
array, then delete `entries[i]` for `i < entriesToRemove` (the guard
`entries.length > 0` is constant since `entries` is a snapshot, and for
`i ≥ entries.length` the truthiness check `if (keyToRemove)` skips the
`undefined` slot — so exactly the first `min entriesToRemove size` keys
are deleted). -/
def performIntelligentCacheEviction {V : Type} (c : List (String × V)) :
    List (String × V) :=
  let entries := c.map Prod.fst
  (entries.take entriesToRemove).foldl (fun acc k => mapDelete acc k) c

/-- Method `_performPeriodicCacheCleanup` (lines 132–143). -/
def performPeriodicCacheCleanup {V : Type} (now : Nat)
    (st : ProviderState V) : ProviderState V :=
  if cacheCleanupInterval < now - st.lastCacheCleanup then
    let st' :=
      if cacheSizeThreshold < st.modelInstanceCache.length then
        { st with modelInstanceCache := performIntelligentCacheEviction st.modelInstanceCache }
      else st
    { st' with lastCacheCleanup := now }
  else st

/-- The miss path of `getModelInstance` (lines 98–121), entered after the
periodic cleanup has run: resolve configuration (`!baseUrl || !apiKey`
throws), invoke `_createOptimizedModel`, insert under the cache key, evict
if the size now exceeds `_maxCacheSize`, record the miss metric, return. -/
def getModelInstanceAfterCleanup {V : Type} (model settings : String)
    (baseUrl apiKey : String) (ctor : String → String → String → Except String V)
    (st : ProviderState V) : Except String V × ProviderState V × Bool :=
  let cacheKey := cacheKeyOf model settings
  if baseUrl = "" ∨ apiKey = "" then
    (Except.error ("Missing configuration for " ++ providerName ++ " provider"),
     st, false)
  else
    match ctor baseUrl apiKey model with
    | Except.error e => (Except.error e, st, true)
    | Except.ok modelInstance =>
      let st2 := { st with modelInstanceCache := mapSet st.modelInstanceCache cacheKey modelInstance }
      let st3 :=
        if maxCacheSize < st2.modelInstanceCache.length then
          { st2 with modelInstanceCache := performIntelligentCacheEviction st2.modelInstanceCache }
        else st2
      (Except.ok modelInstance,
       { st3 with performanceMetrics := updatePerformanceMetrics st3.performanceMetrics model },
       true)

/-- Method `getModelInstance` (lines 78–122): check the cache first (hit records
a metric and returns the cached instance), otherwise run the periodic
cleanup and continue with the miss path.  `ctor` is
`_createOptimizedModel`, applied to `(baseUrl, apiKey, model)`; the `Bool`
of the result records whether it was invoked. -/
def getModelInstance {V : Type} (now : Nat) (model settings : String)
    (baseUrl apiKey : String) (ctor : String → String → String → Except String V)
    (st : ProviderState V) : Except String V × ProviderState V × Bool :=
  let cacheKey := cacheKeyOf model settings
  match mapGet? st.modelInstanceCache cacheKey with
  | some inst =>
    (Except.ok inst,
     { st with performanceMetrics := updatePerformanceMetrics st.performanceMetrics model },
     false)
  | none =>
    getModelInstanceAfterCleanup model settings baseUrl apiKey ctor
      (performPeriodicCacheCleanup now st)

/-- Method `clearCache` (lines 204–209): clear both maps, reset the clock to now. -/
def clearCache {V : Type} (now : Nat) : ProviderState V :=
  { modelInstanceCache := [], performanceMetrics := [], lastCacheCleanup := now }

/-- Method `getPerformanceMetrics` (lines 161–163): a snapshot of the metrics map. -/
def getPerformanceMetrics {V : Type} (st : ProviderState V) :
    List (String × PerformanceMetric) :=
  st.performanceMetrics

/-- The request counter recorded for a model (0 when absent). -/
def requestsOf (metrics : List (String × PerformanceMetric))
    (model : String) : Nat :=
  ((mapGet? metrics model).getD ⟨0, 0⟩).requests

/-- Modelled from the spec (§4.1 `getOrCreate`), NOT from the source: the
order of operations the spec describes on a miss — invoke the constructor,
insert under the key, then check/run the periodic cleanup, then check
whether size exceeds `M` and evict.  Used only to compare that claimed
order against `getModelInstance`. -/
def getModelInstanceSpecOrder {V : Type} (now : Nat) (model settings : String)
    (baseUrl apiKey : String) (ctor : String → String → String → Except String V)
    (st : ProviderState V) : Except String V × ProviderState V × Bool :=
  let cacheKey := cacheKeyOf model settings
  match mapGet? st.modelInstanceCache cacheKey with
  | some inst =>
    (Except.ok inst,
     { st with performanceMetrics := updatePerformanceMetrics st.performanceMetrics model },
     false)
  | none =>
    if baseUrl = "" ∨ apiKey = "" then
      (Except.error ("Missing configuration for " ++ providerName ++ " provider"),
       st, false)
    else
      match ctor baseUrl apiKey model with
      | Except.error e => (Except.error e, st, true)
      | Except.ok modelInstance =>
        let st2 := { st with modelInstanceCache := mapSet st.modelInstanceCache cacheKey modelInstance }
        let st3 := performPeriodicCacheCleanup now st2
        let st4 :=
          if maxCacheSize < st3.modelInstanceCache.length then
            { st3 with modelInstanceCache := performIntelligentCacheEviction st3.modelInstanceCache }
          else st3
        (Except.ok modelInstance,
         { st4 with performanceMetrics := updatePerformanceMetrics st4.performanceMetrics model },
         true)


/-- Concrete caches for witnesses: `n` distinct keys in insertion order. -/
def manyEntries (n : Nat) : List (String × Nat) :=
  (List.range n).map (fun i => (cacheKeyOf (toString i) "s", i))

/-! ## Map lemmas -/

theorem mapGet?_eq_none_iff {V : Type} {c : List (String × V)} {k : String} :
    mapGet? c k = none ↔ ∀ q ∈ c, q.1 ≠ k := by
  induction c with
  | nil => simp [mapGet?]
  | cons p rest ih =>
    by_cases h : p.1 = k <;> simp [mapGet?, h, ih]

theorem mapGet?_append_of_none {V : Type} {c : List (String × V)} {k : String}
    (v : V) (h : mapGet? c k = none) : mapGet? (c ++ [(k, v)]) k = some v := by
  induction c with
  | nil => simp [mapGet?]
  | cons p rest ih =>
    by_cases hp : p.1 = k
    · simp [mapGet?, hp] at h
    · simp [mapGet?, hp] at h ⊢
      exact ih h

theorem mapGet?_mapDelete_ne {V : Type} {c : List (String × V)} {k k' : String}
    (h : k' ≠ k) : mapGet? (mapDelete c k') k = mapGet? c k := by
  induction c with
  | nil => rfl
  | cons p rest ih =>
    simp only [mapDelete, List.filter_cons] at ih ⊢
    by_cases hp : p.1 = k'
    · have hd : decide (p.1 ≠ k') = false := by simp [hp]
      have hpk : ¬ p.1 = k := by rw [hp]; exact h
      rw [hd]
      simp only [Bool.false_eq_true, if_false, mapGet?, hpk, if_false]
      exact ih
    · have hd : decide (p.1 ≠ k') = true := by simp [hp]
      rw [hd]
      simp only [if_true, mapGet?]
      by_cases hk : p.1 = k
      · rw [if_pos hk, if_pos hk]
      · rw [if_neg hk, if_neg hk]
        exact ih

theorem mapGet?_none_of_sublist {V : Type} {c c' : List (String × V)}
    {k : String} (hs : List.Sublist c' c) (h : mapGet? c k = none) :
    mapGet? c' k = none := by
  rw [mapGet?_eq_none_iff] at h ⊢
  exact fun q hq => h q (hs.mem hq)

theorem length_mapDelete_le {V : Type} (c : List (String × V)) (k : String) :
    (mapDelete c k).length ≤ c.length :=
  List.length_filter_le _ c

theorem nodupKeys_cons_iff {V : Type} {p : String × V} {rest : List (String × V)} :
    NodupKeys (p :: rest) ↔ p.1 ∉ rest.map Prod.fst ∧ NodupKeys rest := by
  simp [NodupKeys]

theorem mapDelete_head {V : Type} {p : String × V} {rest : List (String × V)}
    (h : p.1 ∉ rest.map Prod.fst) : mapDelete (p :: rest) p.1 = rest := by
  have hrest : ∀ q ∈ rest, q.1 ≠ p.1 := by
    intro q hq hcontra
    exact h (hcontra ▸ List.mem_map_of_mem Prod.fst hq)
  simp only [mapDelete, List.filter]
  have : decide (p.1 ≠ p.1) = false := by simp
  rw [this]
  rw [List.filter_eq_self.mpr]
  intro q hq
  simpa using hrest q hq

theorem foldl_mapDelete_take {V : Type} :
    ∀ (c : List (String × V)) (n : Nat), NodupKeys c →
      ((c.map Prod.fst).take n).foldl (fun acc k => mapDelete acc k) c = c.drop n := by
  intro c
  induction c with
  | nil => intro n _; simp
  | cons p rest ih =>
    intro n h
    rcases nodupKeys_cons_iff.mp h with ⟨hp, hrest⟩
    match n with
    | 0 => simp
    | Nat.succ m =>
      simp only [List.map_cons, List.take_succ_cons, List.foldl_cons, List.drop_succ_cons]
      rw [mapDelete_head hp]
      exact ih m hrest

theorem eviction_eq_drop {V : Type} {c : List (String × V)} (h : NodupKeys c) :
    performIntelligentCacheEviction c = c.drop entriesToRemove :=
  foldl_mapDelete_take c entriesToRemove h

theorem mapSet_of_none {V : Type} {c : List (String × V)} {k : String}
    (v : V) (h : mapGet? c k = none) : mapSet c k v = c ++ [(k, v)] := by
  simp [mapSet, h]

theorem mapGet?_map_overwrite_self {V : Type} {k : String} (v : V) :
    ∀ (c : List (String × V)) (w : V), mapGet? c k = some w →
      mapGet? (c.map (fun q => if q.1 = k then (k, v) else q)) k = some v
  | p :: rest, w, h => by
    by_cases hp : p.1 = k
    · simp [mapGet?, hp]
    · simp only [mapGet?, hp, if_false] at h
      simp only [List.map_cons, if_neg hp, mapGet?, hp, if_false]
      exact mapGet?_map_overwrite_self v rest w h

theorem mapGet?_map_overwrite_ne {V : Type} {k k' : String} (h : k' ≠ k)
    (v : V) : ∀ (c : List (String × V)),
      mapGet? (c.map (fun q => if q.1 = k then (k, v) else q)) k' = mapGet? c k'
  | [] => rfl
  | p :: rest => by
    by_cases hp : p.1 = k
    · have hpk : ¬ p.1 = k' := by rw [hp]; exact fun hk => h hk.symm
      simp only [List.map_cons, if_pos hp, mapGet?]
      rw [if_neg (fun hk : k = k' => h hk.symm), if_neg hpk]
      exact mapGet?_map_overwrite_ne h v rest
    · simp only [List.map_cons, if_neg hp, mapGet?]
      by_cases hk : p.1 = k'
      · rw [if_pos hk, if_pos hk]
      · rw [if_neg hk, if_neg hk]
        exact mapGet?_map_overwrite_ne h v rest

theorem mapGet?_append_ne {V : Type} {k k' : String} (h : k' ≠ k) (v : V) :
    ∀ c : List (String × V), mapGet? (c ++ [(k, v)]) k' = mapGet? c k'
  | [] => by
    simp only [List.nil_append, mapGet?]
    rw [if_neg (fun hk : k = k' => h hk.symm)]
  | p :: rest => by
    simp only [List.cons_append, mapGet?]
    by_cases hk : p.1 = k'
    · rw [if_pos hk, if_pos hk]
    · rw [if_neg hk, if_neg hk]
      exact mapGet?_append_ne h v rest

theorem mapGet?_mapSet_self {V : Type} (c : List (String × V)) (k : String)
    (v : V) : mapGet? (mapSet c k v) k = some v := by
  cases h : mapGet? c k with
  | some w =>
    simp only [mapSet, h]
    exact mapGet?_map_overwrite_self v c w h
  | none =>
    simp only [mapSet, h]
    exact mapGet?_append_of_none v h

theorem mapGet?_mapSet_ne {V : Type} {c : List (String × V)} {k k' : String}
    (v : V) (h : k' ≠ k) : mapGet? (mapSet c k v) k' = mapGet? c k' := by
  cases hc : mapGet? c k with
  | some w =>
    simp only [mapSet, hc]
    exact mapGet?_map_overwrite_ne h v c
  | none =>
    simp only [mapSet, hc]
    exact mapGet?_append_ne h v c

theorem length_mapSet_of_none {V : Type} {c : List (String × V)} {k : String}
    (v : V) (h : mapGet? c k = none) :
    (mapSet c k v).length = c.length + 1 := by
  rw [mapSet_of_none v h]; simp

theorem foldl_mapDelete_sublist {V : Type} :
    ∀ (ks : List String) (c : List (String × V)),
      List.Sublist (ks.foldl (fun acc k => mapDelete acc k) c) c
  | [], c => List.Sublist.refl c
  | k :: ks, c =>
    (foldl_mapDelete_sublist ks (mapDelete c k)).trans (List.filter_sublist c)

theorem eviction_sublist {V : Type} (c : List (String × V)) :
    List.Sublist (performIntelligentCacheEviction c) c :=
  foldl_mapDelete_sublist ((c.map Prod.fst).take entriesToRemove) c

theorem nodupKeys_of_sublist {V : Type} {c c' : List (String × V)}
    (hs : List.Sublist c' c) (h : NodupKeys c) : NodupKeys c' :=
  List.Nodup.sublist (List.Sublist.map Prod.fst hs) h

theorem nodupKeys_append_of_none {V : Type} {c : List (String × V)}
    {k : String} (v : V) (h : NodupKeys c) (hk : mapGet? c k = none) :
    NodupKeys (c ++ [(k, v)]) := by
  have hmem : k ∉ c.map Prod.fst := by
    rw [mapGet?_eq_none_iff] at hk
    intro hmem
    rcases List.mem_map.mp hmem with ⟨q, hq, hq1⟩
    exact hk q hq hq1
  simp only [NodupKeys, List.map_append, List.map_cons, List.map_nil]
  rw [List.nodup_append]
  refine ⟨h, List.nodup_singleton k, ?_⟩
  intro a ha hak
  rw [List.mem_singleton] at hak
  exact hmem (hak ▸ ha)

/-! ## Periodic-cleanup and miss-path shape lemmas -/

theorem cleanup_not_due {V : Type} {now : Nat} {st : ProviderState V}
    (h : ¬ cacheCleanupInterval < now - st.lastCacheCleanup) :
    performPeriodicCacheCleanup now st = st := by
  simp [performPeriodicCacheCleanup, h]

theorem cleanup_due_small {V : Type} {now : Nat} {st : ProviderState V}
    (h : cacheCleanupInterval < now - st.lastCacheCleanup)
    (hsize : ¬ cacheSizeThreshold < st.modelInstanceCache.length) :
    performPeriodicCacheCleanup now st = { st with lastCacheCleanup := now } := by
  simp [performPeriodicCacheCleanup, h, hsize]

theorem cleanup_due_large {V : Type} {now : Nat} {st : ProviderState V}
    (h : cacheCleanupInterval < now - st.lastCacheCleanup)
    (hsize : cacheSizeThreshold < st.modelInstanceCache.length) :
    performPeriodicCacheCleanup now st =
      { st with
        modelInstanceCache := performIntelligentCacheEviction st.modelInstanceCache,
        lastCacheCleanup := now } := by
  simp [performPeriodicCacheCleanup, h, hsize]

theorem cleanup_performanceMetrics {V : Type} (now : Nat)
    (st : ProviderState V) :
    (performPeriodicCacheCleanup now st).performanceMetrics =
      st.performanceMetrics := by
  unfold performPeriodicCacheCleanup
  split <;> [skip; rfl]
  split <;> rfl

theorem cleanup_cache_sublist {V : Type} (now : Nat) (st : ProviderState V) :
    List.Sublist (performPeriodicCacheCleanup now st).modelInstanceCache
      st.modelInstanceCache := by
  unfold performPeriodicCacheCleanup
  split
  · split
    · exact eviction_sublist _
    · exact List.Sublist.refl _
  · exact List.Sublist.refl _

theorem getModelInstance_hit {V : Type} {now : Nat} {model settings : String}
    {baseUrl apiKey : String} {ctor : String → String → String → Except String V}
    {st : ProviderState V} {v : V}
    (h : mapGet? st.modelInstanceCache (cacheKeyOf model settings) = some v) :
    getModelInstance now model settings baseUrl apiKey ctor st =
      (Except.ok v,
       { st with performanceMetrics := updatePerformanceMetrics st.performanceMetrics model },
       false) := by
  simp [getModelInstance, h]

theorem getModelInstance_miss {V : Type} {now : Nat} {model settings : String}
    {baseUrl apiKey : String} {ctor : String → String → String → Except String V}
    {st : ProviderState V}
    (h : mapGet? st.modelInstanceCache (cacheKeyOf model settings) = none) :
    getModelInstance now model settings baseUrl apiKey ctor st =
      getModelInstanceAfterCleanup model settings baseUrl apiKey ctor
        (performPeriodicCacheCleanup now st) := by
  simp [getModelInstance, h]

theorem mapGet?_foldl_mapDelete_ne {V : Type} {k : String} :
    ∀ (ks : List String) (c : List (String × V)), (∀ k' ∈ ks, k' ≠ k) →
      mapGet? (ks.foldl (fun acc k' => mapDelete acc k') c) k = mapGet? c k
  | [], _, _ => rfl
  | k' :: ks, c, h => by
    simp only [List.foldl_cons]
    rw [mapGet?_foldl_mapDelete_ne ks (mapDelete c k')
      (fun a ha => h a (List.mem_cons_of_mem _ ha))]
    exact mapGet?_mapDelete_ne (h k' (List.mem_cons_self _ _))

theorem mapGet?_eviction_of_fresh_append {V : Type} {c : List (String × V)}
    {k : String} (v : V) (h : mapGet? c k = none)
    (hlen : entriesToRemove ≤ c.length) :
    mapGet? (performIntelligentCacheEviction (c ++ [(k, v)])) k = some v := by
  show mapGet? ((((c ++ [(k, v)]).map Prod.fst).take entriesToRemove).foldl
      (fun acc k' => mapDelete acc k') (c ++ [(k, v)])) k = some v
  have hkeys : (c ++ [(k, v)]).map Prod.fst = c.map Prod.fst ++ [k] := by simp
  rw [hkeys, List.take_append_of_le_length (by simpa using hlen)]
  rw [mapGet?_foldl_mapDelete_ne _ _ ?taken]
  case taken =>
    intro k' hk'
    have hk'mem : k' ∈ c.map Prod.fst := List.take_subset _ _ hk'
    rcases List.mem_map.mp hk'mem with ⟨q, hq, hq1⟩
    exact hq1 ▸ (mapGet?_eq_none_iff.mp h q hq)
  exact mapGet?_append_of_none v h

theorem length_eviction_of_nodup {V : Type} {c : List (String × V)}
    (h : NodupKeys c) :
    (performIntelligentCacheEviction c).length = c.length - entriesToRemove := by
  rw [eviction_eq_drop h, List.length_drop]

/-! ## Metrics lemmas -/

theorem requestsOf_update_self (m : List (String × PerformanceMetric))
    (model : String) :
    requestsOf (updatePerformanceMetrics m model) model =
      requestsOf m model + 1 := by
  simp only [requestsOf, updatePerformanceMetrics, mapGet?_mapSet_self,
    Option.getD_some]

theorem mapGet?_update_ne {m : List (String × PerformanceMetric)}
    {model m' : String} (h : m' ≠ model) :
    mapGet? (updatePerformanceMetrics m model) m' = mapGet? m m' :=
  mapGet?_mapSet_ne _ h

/-! ## Miss-path shape lemmas -/

theorem afterCleanup_config_missing {V : Type} {model settings : String}
    {baseUrl apiKey : String} {ctor : String → String → String → Except String V}
    {st : ProviderState V} (h : baseUrl = "" ∨ apiKey = "") :
    getModelInstanceAfterCleanup model settings baseUrl apiKey ctor st =
      (Except.error ("Missing configuration for " ++ providerName ++ " provider"),
       st, false) := by
  simp only [getModelInstanceAfterCleanup, if_pos h]

theorem afterCleanup_ctor_error {V : Type} {model settings : String}
    {baseUrl apiKey : String} {ctor : String → String → String → Except String V}
    {st : ProviderState V} {e : String}
    (h : ¬ (baseUrl = "" ∨ apiKey = ""))
    (hc : ctor baseUrl apiKey model = Except.error e) :
    getModelInstanceAfterCleanup model settings baseUrl apiKey ctor st =
      (Except.error e, st, true) := by
  simp only [getModelInstanceAfterCleanup, if_neg h, hc]

theorem afterCleanup_ctor_ok_big {V : Type} {model settings : String}
    {baseUrl apiKey : String} {ctor : String → String → String → Except String V}
    {st : ProviderState V} {v : V}
    (h : ¬ (baseUrl = "" ∨ apiKey = ""))
    (hc : ctor baseUrl apiKey model = Except.ok v)
    (hsize : maxCacheSize <
      (mapSet st.modelInstanceCache (cacheKeyOf model settings) v).length) :
    getModelInstanceAfterCleanup model settings baseUrl apiKey ctor st =
      (Except.ok v,
       ⟨performIntelligentCacheEviction
          (mapSet st.modelInstanceCache (cacheKeyOf model settings) v),
        updatePerformanceMetrics st.performanceMetrics model,
        st.lastCacheCleanup⟩,
       true) := by
  simp only [getModelInstanceAfterCleanup, if_neg h, hc]
  rw [if_pos hsize]

theorem afterCleanup_ctor_ok_small {V : Type} {model settings : String}
    {baseUrl apiKey : String} {ctor : String → String → String → Except String V}
    {st : ProviderState V} {v : V}
    (h : ¬ (baseUrl = "" ∨ apiKey = ""))
    (hc : ctor baseUrl apiKey model = Except.ok v)
    (hsize : ¬ maxCacheSize <
      (mapSet st.modelInstanceCache (cacheKeyOf model settings) v).length) :
    getModelInstanceAfterCleanup model settings baseUrl apiKey ctor st =
      (Except.ok v,
       ⟨mapSet st.modelInstanceCache (cacheKeyOf model settings) v,
        updatePerformanceMetrics st.performanceMetrics model,
        st.lastCacheCleanup⟩,
       true) := by
  simp only [getModelInstanceAfterCleanup, if_neg h, hc]
  rw [if_neg hsize]

theorem afterCleanup_lastCacheCleanup {V : Type} (model settings : String)
    (baseUrl apiKey : String) (ctor : String → String → String → Except String V)
    (st : ProviderState V) :
    (getModelInstanceAfterCleanup model settings baseUrl apiKey ctor st).2.1.lastCacheCleanup =
      st.lastCacheCleanup := by
  unfold getModelInstanceAfterCleanup
  split
  · rfl
  · split
    · rfl
    · dsimp only
      split <;> rfl

theorem afterCleanup_metrics {V : Type} (model settings : String)
    (baseUrl apiKey : String) (ctor : String → String → String → Except String V)
    (st : ProviderState V) :
    (getModelInstanceAfterCleanup model settings baseUrl apiKey ctor st).2.1.performanceMetrics =
        st.performanceMetrics ∨
      (getModelInstanceAfterCleanup model settings baseUrl apiKey ctor st).2.1.performanceMetrics =
        updatePerformanceMetrics st.performanceMetrics model := by
  unfold getModelInstanceAfterCleanup
  split
  · exact Or.inl rfl
  · split
    · exact Or.inl rfl
    · dsimp only
      split <;> exact Or.inr rfl

theorem mapGet?_after_success {V : Type} {now : Nat}
    {model settings baseUrl apiKey : String}
    {ctor : String → String → String → Except String V}
    {st st' : ProviderState V} {v : V} {b : Bool}
    (h : getModelInstance now model settings baseUrl apiKey ctor st =
      (Except.ok v, st', b)) :
    mapGet? st'.modelInstanceCache (cacheKeyOf model settings) = some v := by
  cases hlook : mapGet? st.modelInstanceCache (cacheKeyOf model settings) with
  | some w =>
    rw [getModelInstance_hit hlook] at h
    injection h with h1 h2
    injection h2 with h2 h3
    injection h1 with hwv
    subst hwv
    subst h2
    simpa using hlook
  | none =>
    rw [getModelInstance_miss hlook] at h
    have hc' : mapGet? (performPeriodicCacheCleanup now st).modelInstanceCache
        (cacheKeyOf model settings) = none :=
      mapGet?_none_of_sublist (cleanup_cache_sublist now st) hlook
    by_cases hcfg : baseUrl = "" ∨ apiKey = ""
    · rw [afterCleanup_config_missing hcfg] at h
      injection h with h1 h2
      exact Except.noConfusion h1
    · cases hctor : ctor baseUrl apiKey model with
      | error e =>
        rw [afterCleanup_ctor_error hcfg hctor] at h
        injection h with h1 h2
        exact Except.noConfusion h1
      | ok w =>
        by_cases hsize : maxCacheSize <
            (mapSet (performPeriodicCacheCleanup now st).modelInstanceCache
              (cacheKeyOf model settings) w).length
        · rw [afterCleanup_ctor_ok_big hcfg hctor hsize] at h
          injection h with h1 h2
          injection h2 with h2 h3
          injection h1 with hwv
          subst hwv
          subst h2
          have hlen : entriesToRemove ≤
              (performPeriodicCacheCleanup now st).modelInstanceCache.length := by
            rw [length_mapSet_of_none w hc'] at hsize
            simp only [entriesToRemove, maxCacheSize] at hsize ⊢
            omega
          show mapGet? (performIntelligentCacheEviction
            (mapSet (performPeriodicCacheCleanup now st).modelInstanceCache
              (cacheKeyOf model settings) w)) (cacheKeyOf model settings) = some w
          rw [mapSet_of_none w hc']
          exact mapGet?_eviction_of_fresh_append w hc' hlen
        · rw [afterCleanup_ctor_ok_small hcfg hctor hsize] at h
          injection h with h1 h2
          injection h2 with h2 h3
          injection h1 with hwv
          subst hwv
          subst h2
          exact mapGet?_mapSet_self _ _ _

theorem cleanup_clock_of_due {V : Type} {now : Nat} {st : ProviderState V}
    (h : cacheCleanupInterval < now - st.lastCacheCleanup) :
    (performPeriodicCacheCleanup now st).lastCacheCleanup = now := by
  unfold performPeriodicCacheCleanup
  rw [if_pos h]

theorem afterCleanup_invoked {V : Type} {model settings : String}
    {baseUrl apiKey : String} {ctor : String → String → String → Except String V}
    {st : ProviderState V} (h : ¬ (baseUrl = "" ∨ apiKey = "")) :
    (getModelInstanceAfterCleanup model settings baseUrl apiKey ctor st).2.2 =
      true := by
  unfold getModelInstanceAfterCleanup
  rw [if_neg h]
  split <;> rfl

/-! ## Claim theorems -/

/-- Claim C1: if `getModelInstance` has succeeded for a cache key (returning
value `v`), a second call producing the same cache key returns the identical
cached value `v` without invoking the model constructor (invocation flag
`false`, the constructor of the second call being arbitrary), and records a
hit metric for that model (its request counter is incremented by one). -/
theorem second_call_returns_cached_instance {V : Type} {now now2 : Nat}
    {model settings baseUrl apiKey baseUrl2 apiKey2 : String}
    {ctor ctor2 : String → String → String → Except String V}
    {st st' : ProviderState V} {v : V} {b : Bool}
    (h : getModelInstance now model settings baseUrl apiKey ctor st =
      (Except.ok v, st', b)) :
    getModelInstance now2 model settings baseUrl2 apiKey2 ctor2 st' =
      (Except.ok v,
       { st' with performanceMetrics := updatePerformanceMetrics st'.performanceMetrics model },
       false) ∧
    requestsOf (getModelInstance now2 model settings baseUrl2 apiKey2 ctor2
        st').2.1.performanceMetrics model =
      requestsOf st'.performanceMetrics model + 1 := by
  have hl := mapGet?_after_success h
  refine ⟨getModelInstance_hit hl, ?_⟩
  rw [getModelInstance_hit hl]
  exact requestsOf_update_self _ _

/-- Witness for C1: a fresh provider state, a first (miss) call constructing
`7`, then a second call that hits. -/
theorem second_call_returns_cached_instance_witness :
    getModelInstance 0 "m" "s" "b" "a" (fun _ _ _ => Except.ok 7)
        (⟨[], [], 0⟩ : ProviderState Nat) =
      (Except.ok 7, ⟨[(cacheKeyOf "m" "s", 7)], [("m", ⟨1, 0⟩)], 0⟩, true) ∧
    (getModelInstance 1 "m" "s" "b2" "a2" (fun _ _ _ => Except.ok 8)
        (⟨[(cacheKeyOf "m" "s", 7)], [("m", ⟨1, 0⟩)], 0⟩ : ProviderState Nat) =
      (Except.ok 7,
       { (⟨[(cacheKeyOf "m" "s", 7)], [("m", ⟨1, 0⟩)], 0⟩ : ProviderState Nat) with
         performanceMetrics := updatePerformanceMetrics [("m", ⟨1, 0⟩)] "m" },
       false) ∧
    requestsOf (getModelInstance 1 "m" "s" "b2" "a2" (fun _ _ _ => Except.ok 8)
        (⟨[(cacheKeyOf "m" "s", 7)], [("m", ⟨1, 0⟩)], 0⟩ :
          ProviderState Nat)).2.1.performanceMetrics "m" =
      requestsOf [("m", (⟨1, 0⟩ : PerformanceMetric))] "m" + 1) :=
  ⟨by decide,
   @second_call_returns_cached_instance Nat 0 1 "m" "s" "b" "a" "b2" "a2"
     (fun _ _ _ => Except.ok 7) (fun _ _ _ => Except.ok 8)
     ⟨[], [], 0⟩ ⟨[(cacheKeyOf "m" "s", 7)], [("m", ⟨1, 0⟩)], 0⟩ 7 true
     (by decide)⟩

/-- Claim C9: on a cache hit `getModelInstance` returns the cached value and
changes nothing but the metrics entry of the requested model: the cache
mapping and the cleanup clock are untouched, the result does not depend on
the clock, the configuration or the constructor (none of them occur in the
right-hand side), and the requested model's request counter is incremented
by one while its average-response-time field and every other model's entry
are unchanged. -/
theorem cache_hit_frame {V : Type} {now : Nat}
    {model settings baseUrl apiKey : String}
    {ctor : String → String → String → Except String V}
    {st : ProviderState V} {v : V}
    (h : mapGet? st.modelInstanceCache (cacheKeyOf model settings) = some v) :
    getModelInstance now model settings baseUrl apiKey ctor st =
      (Except.ok v,
       { st with performanceMetrics := updatePerformanceMetrics st.performanceMetrics model },
       false) ∧
    mapGet? (updatePerformanceMetrics st.performanceMetrics model) model =
      some ⟨requestsOf st.performanceMetrics model + 1,
        ((mapGet? st.performanceMetrics model).getD ⟨0, 0⟩).avgResponseTime⟩ ∧
    ∀ m', m' ≠ model →
      mapGet? (updatePerformanceMetrics st.performanceMetrics model) m' =
        mapGet? st.performanceMetrics m' := by
  refine ⟨getModelInstance_hit h, ?_, fun m' hm' => mapGet?_update_ne hm'⟩
  simp only [updatePerformanceMetrics, requestsOf]
  exact mapGet?_mapSet_self _ _ _

/-- Witness for C9: a one-entry cache hit with unrelated metrics present. -/
theorem cache_hit_frame_witness :
    mapGet? [(cacheKeyOf "m" "s", 42)] (cacheKeyOf "m" "s") = some 42 ∧
    (getModelInstance 5 "m" "s" "" "" (fun _ _ _ => Except.error "down")
        (⟨[(cacheKeyOf "m" "s", 42)], [("other", ⟨3, 0⟩)], 2⟩ : ProviderState Nat) =
      (Except.ok 42,
       { (⟨[(cacheKeyOf "m" "s", 42)], [("other", ⟨3, 0⟩)], 2⟩ : ProviderState Nat) with
         performanceMetrics := updatePerformanceMetrics [("other", ⟨3, 0⟩)] "m" },
       false) ∧
    mapGet? (updatePerformanceMetrics [("other", ⟨3, 0⟩)] "m") "m" =
      some ⟨requestsOf [("other", (⟨3, 0⟩ : PerformanceMetric))] "m" + 1,
        ((mapGet? [("other", (⟨3, 0⟩ : PerformanceMetric))] "m").getD ⟨0, 0⟩).avgResponseTime⟩ ∧
    ∀ m', m' ≠ "m" →
      mapGet? (updatePerformanceMetrics [("other", ⟨3, 0⟩)] "m") m' =
        mapGet? [("other", (⟨3, 0⟩ : PerformanceMetric))] m') :=
  ⟨by decide,
   @cache_hit_frame Nat 5 "m" "s" "" "" (fun _ _ _ => Except.error "down")
     ⟨[(cacheKeyOf "m" "s", 42)], [("other", ⟨3, 0⟩)], 2⟩ 42 (by decide)⟩

/-- Claim C2: starting from any state whose cache respects the JS `Map`
key-uniqueness and whose size is at most `_maxCacheSize`, the cache size is
again at most `_maxCacheSize` when `getModelInstance` returns (the insert
that crosses the threshold is followed within the same call by the eviction
run that brings the size back under the bound). -/
theorem cache_size_invariant {V : Type} {now : Nat}
    {model settings baseUrl apiKey : String}
    {ctor : String → String → String → Except String V}
    {st : ProviderState V}
    (hnodup : NodupKeys st.modelInstanceCache)
    (hlen : st.modelInstanceCache.length ≤ maxCacheSize) :
    (getModelInstance now model settings baseUrl apiKey ctor
        st).2.1.modelInstanceCache.length ≤ maxCacheSize := by
  cases hlook : mapGet? st.modelInstanceCache (cacheKeyOf model settings) with
  | some w =>
    rw [getModelInstance_hit hlook]
    exact hlen
  | none =>
    rw [getModelInstance_miss hlook]
    have hsub := cleanup_cache_sublist now st
    have hlenc : (performPeriodicCacheCleanup now st).modelInstanceCache.length ≤
        maxCacheSize := le_trans (List.Sublist.length_le hsub) hlen
    have hnodc : NodupKeys (performPeriodicCacheCleanup now st).modelInstanceCache :=
      nodupKeys_of_sublist hsub hnodup
    have hc' : mapGet? (performPeriodicCacheCleanup now st).modelInstanceCache
        (cacheKeyOf model settings) = none :=
      mapGet?_none_of_sublist hsub hlook
    by_cases hcfg : baseUrl = "" ∨ apiKey = ""
    · rw [afterCleanup_config_missing hcfg]
      exact hlenc
    · cases hctor : ctor baseUrl apiKey model with
      | error e =>
        rw [afterCleanup_ctor_error hcfg hctor]
        exact hlenc
      | ok w =>
        have hnodset : NodupKeys (mapSet (performPeriodicCacheCleanup now
            st).modelInstanceCache (cacheKeyOf model settings) w) := by
          rw [mapSet_of_none w hc']
          exact nodupKeys_append_of_none w hnodc hc'
        have hlenset : (mapSet (performPeriodicCacheCleanup now
            st).modelInstanceCache (cacheKeyOf model settings) w).length =
            (performPeriodicCacheCleanup now st).modelInstanceCache.length + 1 :=
          length_mapSet_of_none w hc'
        by_cases hsize : maxCacheSize <
            (mapSet (performPeriodicCacheCleanup now st).modelInstanceCache
              (cacheKeyOf model settings) w).length
        · rw [afterCleanup_ctor_ok_big hcfg hctor hsize]
          show (performIntelligentCacheEviction _).length ≤ maxCacheSize
          rw [length_eviction_of_nodup hnodset, hlenset]
          simp only [maxCacheSize, entriesToRemove] at *
          omega
        · rw [afterCleanup_ctor_ok_small hcfg hctor hsize]
          show (mapSet _ _ _).length ≤ maxCacheSize
          omega

/-- Witness for C2: a full-to-capacity concrete check is done in the
eviction witness; here a small fresh state exercises the invariant. -/
theorem cache_size_invariant_witness :
    NodupKeys ([(cacheKeyOf "x" "s", 1)] : List (String × Nat)) ∧
    ([(cacheKeyOf "x" "s", 1)] : List (String × Nat)).length ≤ maxCacheSize ∧
    (getModelInstance 0 "m" "s" "b" "a" (fun _ _ _ => Except.ok 7)
        (⟨[(cacheKeyOf "x" "s", 1)], [], 0⟩ :
          ProviderState Nat)).2.1.modelInstanceCache.length ≤ maxCacheSize :=
  ⟨by decide, by decide,
   @cache_size_invariant Nat 0 "m" "s" "b" "a" (fun _ _ _ => Except.ok 7)
     ⟨[(cacheKeyOf "x" "s", 1)], [], 0⟩ (by decide) (by decide)⟩

theorem drop_min_eq_drop {V : Type} (c : List (String × V)) (n : Nat) :
    c.drop (min n c.length) = c.drop n := by
  rcases le_total n c.length with h | h
  · rw [min_eq_left h]
  · rw [min_eq_right h, List.drop_length, List.drop_eq_nil_of_le h]

/-- Claim C3: every eviction run removes exactly the oldest
`min entriesToRemove size` entries in insertion (FIFO) order — the removal
count `entriesToRemove = 20` equals `ceil(0.2 * 100)` — and the entry
inserted by a successful triggering `getModelInstance` call survives the
call: the returned value is still cached under its key afterwards. -/
theorem eviction_fifo_spares_inserted {V : Type} {now : Nat}
    {model settings baseUrl apiKey : String}
    {ctor : String → String → String → Except String V}
    {st st' : ProviderState V} {v : V} {b : Bool}
    (c : List (String × V)) (hnodup : NodupKeys c)
    (hcall : getModelInstance now model settings baseUrl apiKey ctor st =
      (Except.ok v, st', b)) :
    performIntelligentCacheEviction c = c.drop (min entriesToRemove c.length) ∧
    mapGet? st'.modelInstanceCache (cacheKeyOf model settings) = some v := by
  refine ⟨?_, mapGet?_after_success hcall⟩
  rw [drop_min_eq_drop]
  exact eviction_eq_drop hnodup

/-- Witness for C3: a 101-key cache is evicted to its oldest-20-removed
suffix, and a call that fills a 100-key cache still ends with its own key
cached. -/
theorem eviction_fifo_spares_inserted_witness :
    NodupKeys (manyEntries 101) ∧
    (getModelInstance 0 "new" "s" "b" "a" (fun _ _ _ => Except.ok 7)
        (⟨manyEntries 100, [], 0⟩ : ProviderState Nat) =
      (Except.ok 7,
       ⟨(manyEntries 100 ++ [(cacheKeyOf "new" "s", 7)]).drop entriesToRemove,
        [("new", ⟨1, 0⟩)], 0⟩, true)) ∧
    (performIntelligentCacheEviction (manyEntries 101) =
      (manyEntries 101).drop (min entriesToRemove (manyEntries 101).length) ∧
     mapGet? ((manyEntries 100 ++ [(cacheKeyOf "new" "s", 7)]).drop entriesToRemove)
        (cacheKeyOf "new" "s") = some 7) :=
  ⟨by decide, by decide,
   @eviction_fifo_spares_inserted Nat 0 "new" "s" "b" "a"
     (fun _ _ _ => Except.ok 7) ⟨manyEntries 100, [], 0⟩
     ⟨(manyEntries 100 ++ [(cacheKeyOf "new" "s", 7)]).drop entriesToRemove,
      [("new", ⟨1, 0⟩)], 0⟩ 7 true (manyEntries 101) (by decide) (by decide)⟩

/-- Claim C6: when the constructor fails on a cache miss, the error
propagates unwrapped (the constructor was invoked: flag `true`), no entry
is retained under the key (the resulting state is exactly the
post-periodic-cleanup state, in which the key is absent), and any
subsequent call for the same key with resolvable configuration invokes
the constructor again. -/
theorem ctor_failure_leaves_key_absent {V : Type} {now : Nat}
    {model settings baseUrl apiKey : String}
    {ctor : String → String → String → Except String V}
    {st : ProviderState V} {e : String}
    (hmiss : mapGet? st.modelInstanceCache (cacheKeyOf model settings) = none)
    (hcfg : ¬ (baseUrl = "" ∨ apiKey = ""))
    (hctor : ctor baseUrl apiKey model = Except.error e) :
    getModelInstance now model settings baseUrl apiKey ctor st =
      (Except.error e, performPeriodicCacheCleanup now st, true) ∧
    mapGet? (performPeriodicCacheCleanup now st).modelInstanceCache
      (cacheKeyOf model settings) = none ∧
    (∀ (now2 : Nat) (baseUrl2 apiKey2 : String)
        (ctor2 : String → String → String → Except String V),
      ¬ (baseUrl2 = "" ∨ apiKey2 = "") →
      (getModelInstance now2 model settings baseUrl2 apiKey2 ctor2
        (performPeriodicCacheCleanup now st)).2.2 = true) := by
  have habsent : mapGet? (performPeriodicCacheCleanup now
      st).modelInstanceCache (cacheKeyOf model settings) = none :=
    mapGet?_none_of_sublist (cleanup_cache_sublist now st) hmiss
  refine ⟨?_, habsent, ?_⟩
  · rw [getModelInstance_miss hmiss, afterCleanup_ctor_error hcfg hctor]
  · intro now2 baseUrl2 apiKey2 ctor2 hcfg2
    rw [getModelInstance_miss habsent]
    exact afterCleanup_invoked hcfg2

/-- Witness for C6: a failing constructor on an empty cache. -/
theorem ctor_failure_leaves_key_absent_witness :
    (getModelInstance 0 "m" "s" "b" "a" (fun _ _ _ => Except.error "boom")
        (⟨[], [], 0⟩ : ProviderState Nat) =
      (Except.error "boom", performPeriodicCacheCleanup 0 ⟨[], [], 0⟩, true) ∧
    mapGet? (performPeriodicCacheCleanup 0
        (⟨[], [], 0⟩ : ProviderState Nat)).modelInstanceCache
      (cacheKeyOf "m" "s") = none ∧
    (∀ (now2 : Nat) (baseUrl2 apiKey2 : String)
        (ctor2 : String → String → String → Except String Nat),
      ¬ (baseUrl2 = "" ∨ apiKey2 = "") →
      (getModelInstance now2 "m" "s" baseUrl2 apiKey2 ctor2
        (performPeriodicCacheCleanup 0 (⟨[], [], 0⟩ : ProviderState Nat))).2.2 =
        true)) :=
  @ctor_failure_leaves_key_absent Nat 0 "m" "s" "b" "a"
    (fun _ _ _ => Except.error "boom") ⟨[], [], 0⟩ "boom"
    (by decide) (by decide) (by decide)

/-- Claim C8: across any `getModelInstance` call the metrics table either is
untouched or gains exactly the one-request increment for the requested
model — evictions inside the call never change it — and the periodic sweep
itself never touches the metrics; only `clearCache` resets them, and
`clearCache` empties the cache, empties the metrics, and resets the cleanup
clock to the current time. -/
theorem metrics_frame_and_clearCache :
    (∀ (V : Type) (now : Nat) (model settings baseUrl apiKey : String)
        (ctor : String → String → String → Except String V)
        (st : ProviderState V),
      (getModelInstance now model settings baseUrl apiKey ctor
          st).2.1.performanceMetrics = st.performanceMetrics ∨
      (getModelInstance now model settings baseUrl apiKey ctor
          st).2.1.performanceMetrics =
        updatePerformanceMetrics st.performanceMetrics model) ∧
    (∀ (V : Type) (now : Nat) (st : ProviderState V),
      (performPeriodicCacheCleanup now st).performanceMetrics =
        st.performanceMetrics) ∧
    (∀ (V : Type) (now : Nat),
      (clearCache now : ProviderState V).modelInstanceCache = [] ∧
      (clearCache now : ProviderState V).performanceMetrics = [] ∧
      (clearCache now : ProviderState V).lastCacheCleanup = now) := by
  refine ⟨?_, fun V now st => cleanup_performanceMetrics now st,
    fun V now => ⟨rfl, rfl, rfl⟩⟩
  intro V now model settings baseUrl apiKey ctor st
  cases hlook : mapGet? st.modelInstanceCache (cacheKeyOf model settings) with
  | some w =>
    rw [getModelInstance_hit hlook]
    exact Or.inr rfl
  | none =>
    rw [getModelInstance_miss hlook]
    rcases afterCleanup_metrics model settings baseUrl apiKey ctor
        (performPeriodicCacheCleanup now st) with h | h
    · rw [h, cleanup_performanceMetrics]
      exact Or.inl rfl
    · rw [h, cleanup_performanceMetrics]
      exact Or.inr rfl

/-- Claim C10: a failing `getModelInstance` call (missing configuration or
constructor error, both only possible on a miss) leaves exactly the
post-periodic-cleanup state: whatever the cleanup did earlier in the same
call — the clock reset when the interval had elapsed, and the eviction when
the size also exceeded the threshold — persists after the error, while the
metrics (which the cleanup never touches) record nothing for the failed
call. -/
theorem failing_call_keeps_cleanup_effects {V : Type} {now : Nat}
    {model settings baseUrl apiKey : String}
    {ctor : String → String → String → Except String V}
    {st : ProviderState V}
    (hmiss : mapGet? st.modelInstanceCache (cacheKeyOf model settings) = none) :
    ((baseUrl = "" ∨ apiKey = "") →
      getModelInstance now model settings baseUrl apiKey ctor st =
        (Except.error ("Missing configuration for " ++ providerName ++ " provider"),
         performPeriodicCacheCleanup now st, false)) ∧
    (∀ e, ¬ (baseUrl = "" ∨ apiKey = "") →
      ctor baseUrl apiKey model = Except.error e →
      getModelInstance now model settings baseUrl apiKey ctor st =
        (Except.error e, performPeriodicCacheCleanup now st, true)) ∧
    (performPeriodicCacheCleanup now st).performanceMetrics =
      st.performanceMetrics ∧
    (cacheCleanupInterval < now - st.lastCacheCleanup →
      (performPeriodicCacheCleanup now st).lastCacheCleanup = now) ∧
    (cacheCleanupInterval < now - st.lastCacheCleanup →
      cacheSizeThreshold < st.modelInstanceCache.length →
      (performPeriodicCacheCleanup now st).modelInstanceCache =
        performIntelligentCacheEviction st.modelInstanceCache) := by
  refine ⟨?_, ?_, cleanup_performanceMetrics now st, ?_, ?_⟩
  · intro hcfg
    rw [getModelInstance_miss hmiss, afterCleanup_config_missing hcfg]
  · intro e hcfg hctor
    rw [getModelInstance_miss hmiss, afterCleanup_ctor_error hcfg hctor]
  · intro hdue
    exact cleanup_clock_of_due hdue
  · intro hdue hsize
    rw [cleanup_due_large hdue hsize]

/-- Witness for C10: a due sweep over an oversized cache followed by a
missing-configuration failure. -/
theorem failing_call_keeps_cleanup_effects_witness :
    mapGet? (manyEntries 81) (cacheKeyOf "m" "s") = none ∧
    ((("" : String) = "" ∨ ("a" : String) = "") →
      getModelInstance 300001 "m" "s" "" "a" (fun _ _ _ => Except.ok 7)
        (⟨manyEntries 81, [], 0⟩ : ProviderState Nat) =
        (Except.error ("Missing configuration for " ++ providerName ++ " provider"),
         performPeriodicCacheCleanup 300001 ⟨manyEntries 81, [], 0⟩, false)) ∧
    (∀ e, ¬ (("" : String) = "" ∨ ("a" : String) = "") →
      (fun _ _ _ => Except.ok 7 : String → String → String → Except String Nat)
        "" "a" "m" = Except.error e →
      getModelInstance 300001 "m" "s" "" "a" (fun _ _ _ => Except.ok 7)
        (⟨manyEntries 81, [], 0⟩ : ProviderState Nat) =
        (Except.error e, performPeriodicCacheCleanup 300001 ⟨manyEntries 81, [], 0⟩,
         true)) ∧
    (performPeriodicCacheCleanup 300001
        (⟨manyEntries 81, [], 0⟩ : ProviderState Nat)).performanceMetrics = [] ∧
    (cacheCleanupInterval < 300001 - 0 →
      (performPeriodicCacheCleanup 300001
        (⟨manyEntries 81, [], 0⟩ : ProviderState Nat)).lastCacheCleanup = 300001) ∧
    (cacheCleanupInterval < 300001 - 0 →
      cacheSizeThreshold < (manyEntries 81).length →
      (performPeriodicCacheCleanup 300001
          (⟨manyEntries 81, [], 0⟩ : ProviderState Nat)).modelInstanceCache =
        performIntelligentCacheEviction (manyEntries 81)) :=
  ⟨by decide,
   @failing_call_keeps_cleanup_effects Nat 300001 "m" "s" "" "a"
     (fun _ _ _ => Except.ok 7) ⟨manyEntries 81, [], 0⟩ (by decide)⟩

/-- Counterexample to claim C4: with the cleanup interval elapsed and the
cache at 81 entries (over the `0.8 * M = 80` threshold), a cache-hit call
runs no eviction and does not reset the cleanup clock — the hit branch
returns before `_performPeriodicCacheCleanup` is reached, refuting the
claim's "whether a hit or a miss". -/
theorem periodic_sweep_skipped_on_hit_counterexample :
    cacheCleanupInterval <
      300001 - (⟨manyEntries 81, [], 0⟩ : ProviderState Nat).lastCacheCleanup ∧
    cacheSizeThreshold <
      (⟨manyEntries 81, [], 0⟩ : ProviderState Nat).modelInstanceCache.length ∧
    (getModelInstance 300001 "0" "s" "b" "a" (fun _ _ _ => Except.ok 7)
        (⟨manyEntries 81, [], 0⟩ : ProviderState Nat)).2.1.modelInstanceCache =
      manyEntries 81 ∧
    (getModelInstance 300001 "0" "s" "b" "a" (fun _ _ _ => Except.ok 7)
        (⟨manyEntries 81, [], 0⟩ : ProviderState Nat)).2.1.lastCacheCleanup = 0 := by
  decide

/-- Claim C4 (amended): if the interval has elapsed, the next cache-MISS
call resets the cleanup clock to `now` whether or not eviction fires, and
when the size also exceeds `0.8 * M` that call continues from the state
whose cache has been evicted and whose clock is reset — even though no new
insert pushed the size over `M`.  (A cache-hit call performs no cleanup at
all; see the counterexample.) -/
theorem periodic_sweep_on_miss {V : Type} {now : Nat}
    {model settings baseUrl apiKey : String}
    {ctor : String → String → String → Except String V}
    {st : ProviderState V}
    (hmiss : mapGet? st.modelInstanceCache (cacheKeyOf model settings) = none)
    (hdue : cacheCleanupInterval < now - st.lastCacheCleanup) :
    (getModelInstance now model settings baseUrl apiKey ctor
        st).2.1.lastCacheCleanup = now ∧
    (cacheSizeThreshold < st.modelInstanceCache.length →
      getModelInstance now model settings baseUrl apiKey ctor st =
        getModelInstanceAfterCleanup model settings baseUrl apiKey ctor
          ⟨performIntelligentCacheEviction st.modelInstanceCache,
           st.performanceMetrics, now⟩) := by
  constructor
  · rw [getModelInstance_miss hmiss, afterCleanup_lastCacheCleanup]
    exact cleanup_clock_of_due hdue
  · intro hsize
    rw [getModelInstance_miss hmiss, cleanup_due_large hdue hsize]

/-- Witness for amended C4: a due sweep over an 81-entry cache on a miss. -/
theorem periodic_sweep_on_miss_witness :
    mapGet? (manyEntries 81) (cacheKeyOf "fresh" "s") = none ∧
    cacheCleanupInterval < 300001 - 0 ∧
    ((getModelInstance 300001 "fresh" "s" "b" "a" (fun _ _ _ => Except.ok 7)
        (⟨manyEntries 81, [], 0⟩ : ProviderState Nat)).2.1.lastCacheCleanup =
      300001 ∧
    (cacheSizeThreshold < (manyEntries 81).length →
      getModelInstance 300001 "fresh" "s" "b" "a" (fun _ _ _ => Except.ok 7)
        (⟨manyEntries 81, [], 0⟩ : ProviderState Nat) =
        getModelInstanceAfterCleanup "fresh" "s" "b" "a" (fun _ _ _ => Except.ok 7)
          ⟨performIntelligentCacheEviction (manyEntries 81), [], 300001⟩)) :=
  ⟨by decide, by decide,
   @periodic_sweep_on_miss Nat 300001 "fresh" "s" "b" "a"
     (fun _ _ _ => Except.ok 7) ⟨manyEntries 81, [], 0⟩
     (by decide) (by decide)⟩

/-- Counterexample to claim C5: on a miss with the cleanup interval elapsed
over an 80-entry cache, the code leaves 81 entries (cleanup runs BEFORE the
insert: 80 is not above the threshold, nothing is evicted), while the order
the claim states — constructor and insert first, cleanup afterwards — would
evict 20 entries (81 exceeds the threshold) and leave 61.  The two orders
therefore disagree at this input. -/
theorem miss_order_counterexample :
    (getModelInstance 300001 "new" "s" "b" "a" (fun _ _ _ => Except.ok 99)
        (⟨manyEntries 80, [], 0⟩ :
          ProviderState Nat)).2.1.modelInstanceCache.length = 81 ∧
    (getModelInstanceSpecOrder 300001 "new" "s" "b" "a" (fun _ _ _ => Except.ok 99)
        (⟨manyEntries 80, [], 0⟩ :
          ProviderState Nat)).2.1.modelInstanceCache.length = 61 ∧
    getModelInstance 300001 "new" "s" "b" "a" (fun _ _ _ => Except.ok 99)
        (⟨manyEntries 80, [], 0⟩ : ProviderState Nat) ≠
      getModelInstanceSpecOrder 300001 "new" "s" "b" "a" (fun _ _ _ => Except.ok 99)
        (⟨manyEntries 80, [], 0⟩ : ProviderState Nat) := by
  decide

/-- Claim C5 (amended): on a cache miss the call performs its steps in this
order — first check whether a periodic cleanup is due and run it, then
resolve configuration and invoke the constructor, insert the result under
the key, and then check whether the size exceeds `M` and run eviction —
so a successful miss call equals insertion-then-size-sweep applied to the
post-cleanup state. -/
theorem miss_runs_cleanup_before_insert {V : Type} {now : Nat}
    {model settings baseUrl apiKey : String}
    {ctor : String → String → String → Except String V}
    {st : ProviderState V} {v : V}
    (hmiss : mapGet? st.modelInstanceCache (cacheKeyOf model settings) = none)
    (hcfg : ¬ (baseUrl = "" ∨ apiKey = ""))
    (hctor : ctor baseUrl apiKey model = Except.ok v) :
    getModelInstance now model settings baseUrl apiKey ctor st =
      (Except.ok v,
       ⟨(if maxCacheSize <
            (mapSet (performPeriodicCacheCleanup now st).modelInstanceCache
              (cacheKeyOf model settings) v).length
         then performIntelligentCacheEviction
            (mapSet (performPeriodicCacheCleanup now st).modelInstanceCache
              (cacheKeyOf model settings) v)
         else mapSet (performPeriodicCacheCleanup now st).modelInstanceCache
            (cacheKeyOf model settings) v),
        updatePerformanceMetrics st.performanceMetrics model,
        (performPeriodicCacheCleanup now st).lastCacheCleanup⟩,
       true) := by
  rw [getModelInstance_miss hmiss]
  by_cases hsize : maxCacheSize <
      (mapSet (performPeriodicCacheCleanup now st).modelInstanceCache
        (cacheKeyOf model settings) v).length
  · rw [afterCleanup_ctor_ok_big hcfg hctor hsize, if_pos hsize,
      cleanup_performanceMetrics]
  · rw [afterCleanup_ctor_ok_small hcfg hctor hsize, if_neg hsize,
      cleanup_performanceMetrics]

/-- Witness for amended C5: a successful miss on a fresh state. -/
theorem miss_runs_cleanup_before_insert_witness :
    mapGet? ([] : List (String × Nat)) (cacheKeyOf "m" "s") = none ∧
    ¬ (("b" : String) = "" ∨ ("a" : String) = "") ∧
    getModelInstance 0 "m" "s" "b" "a" (fun _ _ _ => Except.ok 7)
        (⟨[], [], 0⟩ : ProviderState Nat) =
      (Except.ok 7,
       ⟨(if maxCacheSize <
            (mapSet (performPeriodicCacheCleanup 0
              (⟨[], [], 0⟩ : ProviderState Nat)).modelInstanceCache
              (cacheKeyOf "m" "s") 7).length
         then performIntelligentCacheEviction
            (mapSet (performPeriodicCacheCleanup 0
              (⟨[], [], 0⟩ : ProviderState Nat)).modelInstanceCache
              (cacheKeyOf "m" "s") 7)
         else mapSet (performPeriodicCacheCleanup 0
            (⟨[], [], 0⟩ : ProviderState Nat)).modelInstanceCache
            (cacheKeyOf "m" "s") 7),
        updatePerformanceMetrics [] "m",
        (performPeriodicCacheCleanup 0
          (⟨[], [], 0⟩ : ProviderState Nat)).lastCacheCleanup⟩,
       true) :=
  ⟨by decide, by decide,
   @miss_runs_cleanup_before_insert Nat 0 "m" "s" "b" "a"
     (fun _ _ _ => Except.ok 7) ⟨[], [], 0⟩ 7
     (by decide) (by decide) (by decide)⟩

/-- Counterexample to claim C7: with both credentials missing (empty
`baseUrl` and `apiKey`) but the key cached, `getModelInstance` returns the
cached entry and raises no configuration error — the cache IS consulted
first, refuting "surfaced before the cache is even consulted". -/
theorem config_error_skipped_on_hit_counterexample :
    (("" : String) = "" ∨ ("" : String) = "") ∧
    (getModelInstance 0 "m" "s" "" "" (fun _ _ _ => Except.error "never")
        (⟨[(cacheKeyOf "m" "s", 42)], [], 0⟩ : ProviderState Nat)).1 =
      Except.ok 42 := by
  decide

/-- Claim C7 (amended): the missing-configuration error is surfaced only on
a cache miss, after the cache lookup and the periodic cleanup: with
credentials missing, a cached key is returned with no configuration check,
while an uncached key yields the configuration error without invoking the
constructor and without inserting anything (the state is exactly the
post-cleanup state). -/
theorem config_error_only_on_miss {V : Type} {now : Nat}
    {model settings baseUrl apiKey : String}
    {ctor : String → String → String → Except String V}
    {st : ProviderState V}
    (hcfg : baseUrl = "" ∨ apiKey = "") :
    (∀ v, mapGet? st.modelInstanceCache (cacheKeyOf model settings) = some v →
      getModelInstance now model settings baseUrl apiKey ctor st =
        (Except.ok v,
         { st with performanceMetrics :=
             updatePerformanceMetrics st.performanceMetrics model },
         false)) ∧
    (mapGet? st.modelInstanceCache (cacheKeyOf model settings) = none →
      getModelInstance now model settings baseUrl apiKey ctor st =
        (Except.error ("Missing configuration for " ++ providerName ++ " provider"),
         performPeriodicCacheCleanup now st, false)) := by
  refine ⟨fun v hv => getModelInstance_hit hv, fun hm => ?_⟩
  rw [getModelInstance_miss hm, afterCleanup_config_missing hcfg]

/-- Witness for amended C7: missing credentials with one cached key. -/
theorem config_error_only_on_miss_witness :
    (("" : String) = "" ∨ ("a" : String) = "") ∧
    ((∀ v, mapGet? [(cacheKeyOf "m" "s", 42)] (cacheKeyOf "m" "s") = some v →
      getModelInstance 9 "m" "s" "" "a" (fun _ _ _ => Except.ok 7)
          (⟨[(cacheKeyOf "m" "s", 42)], [], 0⟩ : ProviderState Nat) =
        (Except.ok v,
         { (⟨[(cacheKeyOf "m" "s", 42)], [], 0⟩ : ProviderState Nat) with
           performanceMetrics := updatePerformanceMetrics [] "m" },
         false)) ∧
    (mapGet? [(cacheKeyOf "m" "s", 42)] (cacheKeyOf "m" "s") = none →
      getModelInstance 9 "m" "s" "" "a" (fun _ _ _ => Except.ok 7)
          (⟨[(cacheKeyOf "m" "s", 42)], [], 0⟩ : ProviderState Nat) =
        (Except.error ("Missing configuration for " ++ providerName ++ " provider"),
         performPeriodicCacheCleanup 9 ⟨[(cacheKeyOf "m" "s", 42)], [], 0⟩,
         false))) :=
  ⟨Or.inl rfl,
   @config_error_only_on_miss Nat 9 "m" "s" "" "a" (fun _ _ _ => Except.ok 7)
     ⟨[(cacheKeyOf "m" "s", 42)], [], 0⟩ (by decide)⟩

end OpenWebdev
